import Mathlib

/-!
Shallow embedding of the scheduler core in
server/pulp/server/async/scheduler.py, together with proofs of the
specified properties of FailureWatcher, WorkerWatcher,
WorkerTimeoutMonitor and Scheduler.

The Python dict that backs FailureWatcher._watches and Scheduler._schedule
is modelled as an association list with string keys; insertion overwrites
any previous binding for the key, exactly like dict assignment, and pop
removes the binding, exactly like dict.pop with a default.
-/

/-- Lookup in an association list with string keys, mirroring dict
indexing: the value of the first binding for the key, if any. -/
def alookup {α : Type} : List (String × α) → String → Option α
  | [], _ => none
  | p :: ps, k => if p.1 = k then some p.2 else alookup ps k

/-- Removal of every binding for a key, mirroring dict.pop on the key
(a dict never holds two bindings for one key). -/
def aerase {α : Type} : List (String × α) → String → List (String × α)
  | [], _ => []
  | p :: ps, k => if p.1 = k then aerase ps k else p :: aerase ps k

/-- Overwriting insertion, mirroring dict assignment d[k] = v. -/
def ainsert {α : Type} (m : List (String × α)) (k : String) (v : α) :
    List (String × α) :=
  (k, v) :: aerase m k

/-- The namedtuple WatchedTask(timestamp, schedule_id, has_failure) from
FailureWatcher. -/
structure WatchedTask where
  timestamp : Int
  schedule_id : String
  has_failure : Bool
deriving Repr, DecidableEq

/-- The dict FailureWatcher._watches mapping a task uuid to its watch. -/
abbrev Watches := List (String × WatchedTask)

/-- FailureWatcher.ttl, the watch lifetime: four hours in seconds. -/
def FailureWatcher.ttl : Int := 60 * 60 * 4

/-- Calls made on the schedule store (pulp.server.managers.schedule.utils)
by the task-outcome handlers. -/
inductive StoreCall where
  | reset_failure_count (schedule_id : String)
  | increment_failure_count (schedule_id : String)
deriving Repr, DecidableEq

/-- The result held by the AsyncResult of a succeeded task: either a plain
value, or a reference to a further (chained) task, the case the source
detects with an isinstance check against AsyncResult. -/
inductive TaskResult where
  | value
  | taskRef (id : String)
deriving Repr, DecidableEq

/-- FailureWatcher.trim: drop every watch whose timestamp is older than
now minus the ttl, where now is the integer epoch clock at the call. -/
def FailureWatcher.trim (now : Int) (w : Watches) : Watches :=
  w.filter (fun p => !decide (p.2.timestamp < now - FailureWatcher.ttl))

/-- FailureWatcher.add: record a watch for a freshly queued task, stamped
with the integer epoch clock at the call. -/
def FailureWatcher.add (w : Watches) (task_id schedule_id : String)
    (has_failure : Bool) (now : Int) : Watches :=
  ainsert w task_id (WatchedTask.mk now schedule_id has_failure)

/-- FailureWatcher.pop: remove the watch for the task and return its
schedule_id and has_failure fields, or the sentinel pair (None, None)
when the task is not tracked. -/
def FailureWatcher.pop (w : Watches) (task_id : String) :
    (Option String × Option Bool) × Watches :=
  match alookup w task_id with
  | some wt => ((some wt.schedule_id, some wt.has_failure), aerase w task_id)
  | none => ((none, none), aerase w task_id)

/-- FailureWatcher.handle_succeeded_task. The source pops the uuid and
then runs the body under the test if schedule_id, Python truthiness,
which is false both for None (task untracked, the match arm with
underscores) and for the empty string; then an isinstance check sends a
chained task result to a re-add under the child id, and otherwise the
failure count is reset only when has_failure was recorded. The result
value of the AsyncResult lookup is passed in as an argument, and the
integer epoch clock (used by the re-add) as now. The second component
collects the store calls made. -/
def FailureWatcher.handle_succeeded_task (w : Watches) (uuid : String)
    (result : TaskResult) (now : Int) : Watches × List StoreCall :=
  let pr := FailureWatcher.pop w uuid
  match pr.1.1, pr.1.2 with
  | some schedule_id, some has_failure =>
    if schedule_id = "" then (pr.2, [])
    else
      match result with
      | TaskResult.taskRef cid =>
          (FailureWatcher.add pr.2 cid schedule_id has_failure now, [])
      | TaskResult.value =>
          if has_failure then
            (pr.2, [StoreCall.reset_failure_count schedule_id])
          else (pr.2, [])
  | _, _ => (pr.2, [])

/-- FailureWatcher.handle_failed_task: pop the uuid and, when the popped
schedule_id is truthy, increment the failure count for that schedule. -/
def FailureWatcher.handle_failed_task (w : Watches) (uuid : String) :
    Watches × List StoreCall :=
  let pr := FailureWatcher.pop w uuid
  match pr.1.1 with
  | some schedule_id =>
    if schedule_id = "" then (pr.2, [])
    else (pr.2, [StoreCall.increment_failure_count schedule_id])
  | none => (pr.2, [])

/-! Basic lemmas about the association-list map. -/

lemma alookup_aerase {α : Type} (m : List (String × α)) (k j : String) :
    alookup (aerase m k) j = if j = k then none else alookup m j := by
  induction m with
  | nil => simp [aerase, alookup]
  | cons p ps ih =>
    by_cases h1 : p.1 = k
    · by_cases h2 : j = k
      · subst h2
        simp [aerase, alookup, h1, ih]
      · have hpj : ¬ p.1 = j := fun hh => h2 (hh.symm.trans h1)
        rw [show aerase (p :: ps) k = aerase ps k from by simp [aerase, h1]]
        rw [ih, if_neg h2]
        simp [alookup, hpj, h2]
    · by_cases h2 : p.1 = j
      · have hjk : ¬ j = k := fun hh => h1 (h2.trans hh)
        simp [alookup, aerase, h1, h2, hjk]
      · simp [alookup, aerase, h1, h2, ih]

lemma alookup_ainsert {α : Type} (m : List (String × α)) (k j : String)
    (v : α) :
    alookup (ainsert m k v) j = if j = k then some v else alookup m j := by
  by_cases h : j = k
  · subst h
    simp [ainsert, alookup]
  · have hkj : ¬ k = j := fun hh => h hh.symm
    simp only [ainsert, alookup]
    rw [if_neg hkj, alookup_aerase, if_neg h, if_neg h]

lemma aerase_eq_self {α : Type} (m : List (String × α)) (k : String)
    (h : alookup m k = none) : aerase m k = m := by
  induction m with
  | nil => rfl
  | cons p ps ih =>
    by_cases h1 : p.1 = k
    · simp [alookup, h1] at h
    · simp [alookup, h1] at h
      simp [aerase, h1, ih h]

lemma pop_snd (w : Watches) (x : String) :
    (FailureWatcher.pop w x).2 = aerase w x := by
  unfold FailureWatcher.pop
  cases alookup w x <;> rfl

lemma pop_of_alookup_none (w : Watches) (x : String)
    (h : alookup w x = none) :
    FailureWatcher.pop w x = ((none, none), aerase w x) := by
  unfold FailureWatcher.pop
  rw [h]

lemma pop_of_alookup_some (w : Watches) (x : String) (wt : WatchedTask)
    (h : alookup w x = some wt) :
    FailureWatcher.pop w x =
      ((some wt.schedule_id, some wt.has_failure), aerase w x) := by
  unfold FailureWatcher.pop
  rw [h]

/-- C4: trim at time t keeps exactly the watches whose timestamp is at
least t minus 14400 seconds; every entry strictly older than t - 14400
is removed and no fresher entry is removed. -/
theorem C4_trim_ttl_bound (w : Watches) (t : Int) (p : String × WatchedTask) :
    p ∈ FailureWatcher.trim t w ↔ p ∈ w ∧ t - 14400 ≤ p.2.timestamp := by
  have httl : FailureWatcher.ttl = 14400 := by norm_num [FailureWatcher.ttl]
  simp [FailureWatcher.trim, List.mem_filter, httl, not_lt]

/-- Concrete instance of the trim theorem: an entry stamped 100 survives a
trim at time 14500 (the cutoff is 100) and is indeed in the table. -/
theorem C4_trim_ttl_bound_witness :
    ("a", WatchedTask.mk 100 "s" false) ∈
        FailureWatcher.trim 14500 [("a", WatchedTask.mk 100 "s" false)] ↔
      ("a", WatchedTask.mk 100 "s" false) ∈
          ([("a", WatchedTask.mk 100 "s" false)] : Watches) ∧
        (14500 : Int) - 14400 ≤ 100 :=
  C4_trim_ttl_bound [("a", WatchedTask.mk 100 "s" false)] 14500
    ("a", WatchedTask.mk 100 "s" false)

/-- C5: pop is total and removing. On a table not holding x, pop returns
the sentinel pair and leaves the table unchanged; after any pop of x the
key x is absent, and an immediately following pop of x returns the
sentinel pair. -/
theorem C5_pop_total_removing (w w2 : Watches) (x : String)
    (h : alookup w x = none) :
    (FailureWatcher.pop w x).1 = (none, none) ∧
      (FailureWatcher.pop w x).2 = w ∧
      alookup (FailureWatcher.pop w2 x).2 x = none ∧
      (FailureWatcher.pop (FailureWatcher.pop w2 x).2 x).1 = (none, none) := by
  have habs : alookup (FailureWatcher.pop w2 x).2 x = none := by
    rw [pop_snd, alookup_aerase]
    simp
  refine ⟨?_, ?_, habs, ?_⟩
  · rw [pop_of_alookup_none w x h]
  · rw [pop_snd, aerase_eq_self w x h]
  · rw [pop_of_alookup_none _ _ habs]

/-- Concrete instance of the pop theorem at a one-entry table and the
missing key b. -/
theorem C5_pop_total_removing_witness :
    alookup ([("a", WatchedTask.mk 0 "s" true)] : Watches) "b" = none ∧
      ((FailureWatcher.pop [("a", WatchedTask.mk 0 "s" true)] "b").1 =
          (none, none) ∧
        (FailureWatcher.pop [("a", WatchedTask.mk 0 "s" true)] "b").2 =
          [("a", WatchedTask.mk 0 "s" true)] ∧
        alookup
            (FailureWatcher.pop [("a", WatchedTask.mk 5 "q" false)] "b").2
            "b" = none ∧
        (FailureWatcher.pop
            (FailureWatcher.pop [("a", WatchedTask.mk 5 "q" false)] "b").2
            "b").1 = (none, none)) :=
  ⟨by decide,
    C5_pop_total_removing [("a", WatchedTask.mk 0 "s" true)]
      [("a", WatchedTask.mk 5 "q" false)] "b" (by decide)⟩

/-! Task-outcome handlers. The source guards the body of each handler
with the Python truthiness test if schedule_id, so a watch recorded under
the empty schedule_id string is dropped silently: that is the one input
on which the literal reading of the success and failure properties
fails. -/

/-- C1 (amended): for a watch tracked under a non-empty schedule_id,
handling task-succeeded with a result that is not a task reference makes
the reset_failure_count call exactly once when has_failure was recorded
and no store call otherwise, and the watch entry is removed. -/
theorem C1_succeeded_resets_once (w : Watches) (uuid : String) (ts : Int)
    (sid : String) (hf : Bool) (now : Int)
    (h : alookup w uuid = some (WatchedTask.mk ts sid hf))
    (hs : sid ≠ "") :
    (FailureWatcher.handle_succeeded_task w uuid TaskResult.value now).2 =
        (if hf then [StoreCall.reset_failure_count sid] else []) ∧
      alookup
        (FailureWatcher.handle_succeeded_task w uuid TaskResult.value now).1
        uuid = none := by
  unfold FailureWatcher.handle_succeeded_task
  rw [pop_of_alookup_some w uuid _ h]
  simp only [hs, if_false]
  have herase : alookup (aerase w uuid) uuid = none := by
    rw [alookup_aerase]
    simp
  cases hf <;> simp [herase, hs]

/-- Concrete instance of the success-reset theorem with has_failure
recorded: exactly one reset call, and the entry is gone. -/
theorem C1_succeeded_resets_once_witness :
    alookup ([("t1", WatchedTask.mk 5 "s1" true)] : Watches) "t1" =
        some (WatchedTask.mk 5 "s1" true) ∧
      ("s1" : String) ≠ "" ∧
      ((FailureWatcher.handle_succeeded_task
            [("t1", WatchedTask.mk 5 "s1" true)] "t1" TaskResult.value 6).2 =
          (if true then [StoreCall.reset_failure_count "s1"] else []) ∧
        alookup
          (FailureWatcher.handle_succeeded_task
              [("t1", WatchedTask.mk 5 "s1" true)] "t1" TaskResult.value 6).1
          "t1" = none) :=
  ⟨by decide, by decide,
    C1_succeeded_resets_once [("t1", WatchedTask.mk 5 "s1" true)] "t1" 5
      "s1" true 6 (by decide) (by decide)⟩

/-- C1 as stated fails on the code: a watch tracked under the empty
schedule_id with has_failure true is handled with zero store calls,
because the handler tests Python truthiness of schedule_id. -/
theorem C1_empty_schedule_id_counterexample :
    alookup ([("t0", WatchedTask.mk 0 "" true)] : Watches) "t0" =
        some (WatchedTask.mk 0 "" true) ∧
      (FailureWatcher.handle_succeeded_task
          [("t0", WatchedTask.mk 0 "" true)] "t0" TaskResult.value 0).2 =
        [] := by
  constructor
  · decide
  · rfl

/-- C2 (amended): for a watch tracked under a non-empty schedule_id,
handling task-failed calls increment_failure_count exactly once whatever
has_failure holds, and removes the watch; a further task-failed for the
same, now untracked, uuid makes no store call. -/
theorem C2_failed_increments_once (w : Watches) (uuid : String) (ts : Int)
    (sid : String) (hf : Bool)
    (h : alookup w uuid = some (WatchedTask.mk ts sid hf))
    (hs : sid ≠ "") :
    (FailureWatcher.handle_failed_task w uuid).2 =
        [StoreCall.increment_failure_count sid] ∧
      alookup (FailureWatcher.handle_failed_task w uuid).1 uuid = none ∧
      (FailureWatcher.handle_failed_task
          (FailureWatcher.handle_failed_task w uuid).1 uuid).2 = [] := by
  have herase : alookup (aerase w uuid) uuid = none := by
    rw [alookup_aerase]
    simp
  have hfst : (FailureWatcher.handle_failed_task w uuid).1 = aerase w uuid := by
    unfold FailureWatcher.handle_failed_task
    rw [pop_of_alookup_some w uuid _ h]
    simp [hs]
  refine ⟨?_, ?_, ?_⟩
  · unfold FailureWatcher.handle_failed_task
    rw [pop_of_alookup_some w uuid _ h]
    simp [hs]
  · rw [hfst]
    exact herase
  · rw [hfst]
    unfold FailureWatcher.handle_failed_task
    rw [pop_of_alookup_none _ _ herase]

/-- Concrete instance of the failure-increment theorem: one increment
call, entry removed, and a second task-failed is a no-op on the store. -/
theorem C2_failed_increments_once_witness :
    alookup ([("t2", WatchedTask.mk 7 "s2" false)] : Watches) "t2" =
        some (WatchedTask.mk 7 "s2" false) ∧
      ("s2" : String) ≠ "" ∧
      ((FailureWatcher.handle_failed_task
            [("t2", WatchedTask.mk 7 "s2" false)] "t2").2 =
          [StoreCall.increment_failure_count "s2"] ∧
        alookup
          (FailureWatcher.handle_failed_task
              [("t2", WatchedTask.mk 7 "s2" false)] "t2").1 "t2" = none ∧
        (FailureWatcher.handle_failed_task
            (FailureWatcher.handle_failed_task
                [("t2", WatchedTask.mk 7 "s2" false)] "t2").1 "t2").2 =
          []) :=
  ⟨by decide, by decide,
    C2_failed_increments_once [("t2", WatchedTask.mk 7 "s2" false)] "t2" 7
      "s2" false (by decide) (by decide)⟩

/-- C2 as stated fails on the code: a watch tracked under the empty
schedule_id is popped by task-failed with zero store calls, because the
handler tests Python truthiness of schedule_id. -/
theorem C2_empty_schedule_id_counterexample :
    alookup ([("t3", WatchedTask.mk 0 "" true)] : Watches) "t3" =
        some (WatchedTask.mk 0 "" true) ∧
      (FailureWatcher.handle_failed_task
          [("t3", WatchedTask.mk 0 "" true)] "t3").2 = [] := by
  constructor
  · decide
  · rfl

/-- C3 (amended): for a watch tracked under a non-empty schedule_id,
handling task-succeeded whose result is a task reference makes no store
call and transfers the watch to the child id with schedule_id and
has_failure preserved and the timestamp refreshed; the parent uuid is no
longer tracked unless the child id equals it, in which case the parent
key holds exactly the transferred entry. -/
theorem C3_chain_transfers_watch (w : Watches) (uuid cid : String)
    (ts : Int) (sid : String) (hf : Bool) (now : Int)
    (h : alookup w uuid = some (WatchedTask.mk ts sid hf))
    (hs : sid ≠ "") :
    (FailureWatcher.handle_succeeded_task w uuid (TaskResult.taskRef cid)
        now).2 = [] ∧
      alookup
        (FailureWatcher.handle_succeeded_task w uuid
            (TaskResult.taskRef cid) now).1 cid =
        some (WatchedTask.mk now sid hf) ∧
      alookup
        (FailureWatcher.handle_succeeded_task w uuid
            (TaskResult.taskRef cid) now).1 uuid =
        (if uuid = cid then some (WatchedTask.mk now sid hf) else none) := by
  unfold FailureWatcher.handle_succeeded_task
  rw [pop_of_alookup_some w uuid _ h]
  simp only [hs, if_false]
  have herase : alookup (aerase w uuid) uuid = none := by
    rw [alookup_aerase]
    simp
  refine ⟨by simp [hs], ?_, ?_⟩
  · simp [hs, FailureWatcher.add, alookup_ainsert]
  · simp only [hs, if_false, FailureWatcher.add]
    rw [alookup_ainsert]
    by_cases hc : uuid = cid
    · simp [hc]
    · simp [hc, herase]

/-- Concrete instance of the chain-transfer theorem: the child now
carries the watch with the same schedule and flag, the parent is gone,
and the store is untouched. -/
theorem C3_chain_transfers_watch_witness :
    alookup ([("p1", WatchedTask.mk 3 "s3" true)] : Watches) "p1" =
        some (WatchedTask.mk 3 "s3" true) ∧
      ("s3" : String) ≠ "" ∧
      ((FailureWatcher.handle_succeeded_task
            [("p1", WatchedTask.mk 3 "s3" true)] "p1"
            (TaskResult.taskRef "c1") 9).2 = [] ∧
        alookup
          (FailureWatcher.handle_succeeded_task
              [("p1", WatchedTask.mk 3 "s3" true)] "p1"
              (TaskResult.taskRef "c1") 9).1 "c1" =
          some (WatchedTask.mk 9 "s3" true) ∧
        alookup
          (FailureWatcher.handle_succeeded_task
              [("p1", WatchedTask.mk 3 "s3" true)] "p1"
              (TaskResult.taskRef "c1") 9).1 "p1" =
          (if "p1" = "c1" then some (WatchedTask.mk 9 "s3" true)
            else none)) :=
  ⟨by decide, by decide,
    C3_chain_transfers_watch [("p1", WatchedTask.mk 3 "s3" true)] "p1" "c1"
      3 "s3" true 9 (by decide) (by decide)⟩

/-- C3 as stated fails on the code: a watch tracked under the empty
schedule_id is dropped on a chained success instead of being transferred
to the child id, because the handler tests Python truthiness of
schedule_id before the isinstance dispatch. -/
theorem C3_empty_schedule_id_counterexample :
    alookup ([("p0", WatchedTask.mk 0 "" true)] : Watches) "p0" =
        some (WatchedTask.mk 0 "" true) ∧
      alookup
        (FailureWatcher.handle_succeeded_task
            [("p0", WatchedTask.mk 0 "" true)] "p0"
            (TaskResult.taskRef "c0") 4).1 "c0" = none := by
  constructor
  · decide
  · rfl

/-! Worker lifecycle: WorkerWatcher event handlers and the
WorkerTimeoutMonitor sweep. A handler returns the new registry contents
together with the list of task submissions it dispatched. -/

/-- A celery worker event as consumed by WorkerWatcher: the hostname and
the timestamp (held here as integer seconds, the only use the handlers
make of it is to store it). -/
structure WorkerEvent where
  hostname : String
  timestamp : Int
deriving Repr, DecidableEq

/-- An AvailableQueue row of the worker registry: name, last_heartbeat
(naive UTC, held as integer seconds) and num_reservations. -/
structure AvailableQueue where
  name : String
  last_heartbeat : Int
  num_reservations : Nat
deriving Repr, DecidableEq

/-- A task submission through apply_async: task name, single argument and
target queue. -/
structure Submission where
  task : String
  arg : String
  queue : String
deriving Repr, DecidableEq

/-- The constant RESOURCE_MANAGER_QUEUE from celery_instance. -/
def RESOURCE_MANAGER_QUEUE : String := "resource_manager"

/-- WorkerWatcher._is_resource_manager: the source matches the regular
expression anchored at the start of the hostname against the reserved
resource-manager marker, which is a plain starts-with test since the
marker holds no special regex characters; it is rendered here as a
prefix test on the character sequences. -/
def WorkerWatcher.is_resource_manager (event : WorkerEvent) : Bool :=
  "resource_manager@".data.isPrefixOf event.hostname.data

/-- WorkerWatcher.handle_worker_heartbeat: drop resource-manager events;
otherwise update last_heartbeat of the existing row named by the
hostname (registry rows are keyed by unique _id), or insert a fresh row
when none exists. No submission is ever dispatched. -/
def WorkerWatcher.handle_worker_heartbeat (event : WorkerEvent)
    (registry : List AvailableQueue) :
    List AvailableQueue × List Submission :=
  if WorkerWatcher.is_resource_manager event then (registry, [])
  else
    match registry.find? (fun q => q.name == event.hostname) with
    | some _ =>
        (registry.map (fun q =>
          if q.name == event.hostname then
            AvailableQueue.mk q.name event.timestamp q.num_reservations
          else q), [])
    | none =>
        (registry ++ [AvailableQueue.mk event.hostname event.timestamp 0], [])

/-- WorkerWatcher.handle_worker_offline: drop resource-manager events;
otherwise dispatch one _delete_queue task for the hostname to the
resource-manager queue, leaving the registry untouched. -/
def WorkerWatcher.handle_worker_offline (event : WorkerEvent)
    (registry : List AvailableQueue) :
    List AvailableQueue × List Submission :=
  if WorkerWatcher.is_resource_manager event then (registry, [])
  else
    (registry,
      [Submission.mk "_delete_queue" event.hostname RESOURCE_MANAGER_QUEUE])

/-- The constant WorkerTimeoutMonitor.WORKER_TIMEOUT_SECONDS. -/
def WorkerTimeoutMonitor.WORKER_TIMEOUT_SECONDS : Int := 300

/-- WorkerTimeoutMonitor.check_workers at clock now: select the rows with
last_heartbeat strictly below now minus the timeout and dispatch one
_delete_queue task per such row to the resource-manager queue. -/
def WorkerTimeoutMonitor.check_workers (now : Int)
    (registry : List AvailableQueue) : List Submission :=
  (registry.filter (fun q =>
      decide (q.last_heartbeat <
        now - WorkerTimeoutMonitor.WORKER_TIMEOUT_SECONDS))).map
    (fun q => Submission.mk "_delete_queue" q.name RESOURCE_MANAGER_QUEUE)

/-- C9: a worker event whose hostname begins with the resource-manager
marker is dropped by both worker handlers: the registry is returned
unchanged and no submission is dispatched. -/
theorem C9_resource_manager_events_dropped (event : WorkerEvent)
    (registry : List AvailableQueue)
    (h : "resource_manager@".data.isPrefixOf event.hostname.data = true) :
    WorkerWatcher.handle_worker_heartbeat event registry = (registry, []) ∧
      WorkerWatcher.handle_worker_offline event registry = (registry, []) := by
  have hrm : WorkerWatcher.is_resource_manager event = true := h
  constructor
  · unfold WorkerWatcher.handle_worker_heartbeat
    rw [hrm]
    simp
  · unfold WorkerWatcher.handle_worker_offline
    rw [hrm]
    simp

/-- Concrete instance of the filter theorem at the hostname
resource_manager@host1 and a one-row registry. -/
theorem C9_resource_manager_events_dropped_witness :
    "resource_manager@".data.isPrefixOf
        (WorkerEvent.mk "resource_manager@host1" 1000).hostname.data = true ∧
      (WorkerWatcher.handle_worker_heartbeat
          (WorkerEvent.mk "resource_manager@host1" 1000)
          [AvailableQueue.mk "w1" 5 0] =
        ([AvailableQueue.mk "w1" 5 0], []) ∧
      WorkerWatcher.handle_worker_offline
          (WorkerEvent.mk "resource_manager@host1" 1000)
          [AvailableQueue.mk "w1" 5 0] =
        ([AvailableQueue.mk "w1" 5 0], [])) :=
  ⟨by decide,
    C9_resource_manager_events_dropped
      (WorkerEvent.mk "resource_manager@host1" 1000)
      [AvailableQueue.mk "w1" 5 0] (by decide)⟩

/-- Counting over a registry with pairwise-distinct names: the rows that
carry the name of a member w and satisfy p are exactly w itself when p
holds of w, and there are none otherwise. -/
lemma countP_name_unique (l : List AvailableQueue) (w : AvailableQueue)
    (p : AvailableQueue → Bool)
    (hnd : (l.map (fun q => q.name)).Nodup) (hw : w ∈ l) :
    l.countP (fun q => q.name == w.name && p q) = if p w then 1 else 0 := by
  induction l with
  | nil => cases hw
  | cons q rest ih =>
    rw [List.map_cons, List.nodup_cons] at hnd
    rcases List.mem_cons.mp hw with hqw | hw2
    · subst hqw
      rw [List.countP_cons]
      have hz : rest.countP (fun r => r.name == w.name && p r) = 0 := by
        rw [List.countP_eq_zero]
        intro r hr
        simp only [Bool.and_eq_true, beq_iff_eq, not_and]
        intro hname _
        exact hnd.1 (hname ▸ List.mem_map_of_mem (fun x => x.name) hr)
      rw [hz]
      by_cases hp : p w = true
      · simp [hp]
      · simp [Bool.eq_false_iff.mpr hp]
    · rw [List.countP_cons]
      have hq : (q.name == w.name && p q) = false := by
        have hne : ¬ q.name = w.name := by
          intro he
          exact hnd.1 (he ▸ List.mem_map_of_mem (fun x => x.name) hw2)
        simp [hne]
      rw [hq]
      simp [ih hnd.2 hw2]

/-- C10: one sweep at clock now over a registry with pairwise-distinct
names dispatches exactly one submission carrying the name of a given row
when its last_heartbeat is strictly older than now minus 300 seconds and
none otherwise; every dispatched submission is the _delete_queue task on
the resource_manager queue; and a single row exactly 301 seconds stale
yields exactly the one expected submission. -/
theorem C10_worker_timeout_sweep (now : Int)
    (registry : List AvailableQueue) (w : AvailableQueue)
    (hnd : (registry.map (fun q => q.name)).Nodup) (hw : w ∈ registry) :
    (WorkerTimeoutMonitor.check_workers now registry).countP
        (fun s => s.arg == w.name) =
      (if w.last_heartbeat < now - 300 then 1 else 0) ∧
      (WorkerTimeoutMonitor.check_workers now registry).all
        (fun s => s.task == "_delete_queue" &&
          s.queue == "resource_manager") = true ∧
      WorkerTimeoutMonitor.check_workers now
          [AvailableQueue.mk "w1" (now - 301) 0] =
        [Submission.mk "_delete_queue" "w1" "resource_manager"] := by
  refine ⟨?_, ?_, ?_⟩
  · unfold WorkerTimeoutMonitor.check_workers
    rw [List.countP_map, List.countP_filter]
    have hcu := countP_name_unique registry w
      (fun q => decide (q.last_heartbeat <
        now - WorkerTimeoutMonitor.WORKER_TIMEOUT_SECONDS)) hnd hw
    by_cases hP :
        w.last_heartbeat < now - WorkerTimeoutMonitor.WORKER_TIMEOUT_SECONDS
    · have h300 : w.last_heartbeat < now - 300 := hP
      simp only [Function.comp] at hcu ⊢
      rw [hcu]
      simp [hP, h300]
    · have h300 : ¬ w.last_heartbeat < now - 300 := hP
      simp only [Function.comp] at hcu ⊢
      rw [hcu]
      simp [hP, h300]
  · rw [List.all_eq_true]
    intro s hs
    rcases List.mem_map.mp hs with ⟨q, _, hq⟩
    subst hq
    rfl
  · have h301 : now - 301 < now - WorkerTimeoutMonitor.WORKER_TIMEOUT_SECONDS := by
      unfold WorkerTimeoutMonitor.WORKER_TIMEOUT_SECONDS
      omega
    simp [WorkerTimeoutMonitor.check_workers, h301, RESOURCE_MANAGER_QUEUE]

/-- Concrete instance of the sweep theorem: with rows a (stale by 400
seconds) and b (fresh) at clock 1000, the row a gets exactly one
submission, all submissions are cleanup tasks on the manager queue, and
the singleton 301-second-stale registry yields one submission. -/
theorem C10_worker_timeout_sweep_witness :
    (([AvailableQueue.mk "a" 300 0,
        AvailableQueue.mk "b" 800 0].map (fun q => q.name)).Nodup ∧
      AvailableQueue.mk "a" 300 0 ∈
        [AvailableQueue.mk "a" 300 0, AvailableQueue.mk "b" 800 0]) ∧
      ((WorkerTimeoutMonitor.check_workers 1000
            [AvailableQueue.mk "a" 300 0,
              AvailableQueue.mk "b" 800 0]).countP
          (fun s => s.arg == (AvailableQueue.mk "a" 300 0).name) =
        (if (AvailableQueue.mk "a" 300 0).last_heartbeat <
            (1000 : Int) - 300 then 1 else 0) ∧
      (WorkerTimeoutMonitor.check_workers 1000
          [AvailableQueue.mk "a" 300 0, AvailableQueue.mk "b" 800 0]).all
        (fun s => s.task == "_delete_queue" &&
          s.queue == "resource_manager") = true ∧
      WorkerTimeoutMonitor.check_workers 1000
          [AvailableQueue.mk "w1" ((1000 : Int) - 301) 0] =
        [Submission.mk "_delete_queue" "w1" "resource_manager"]) :=
  ⟨⟨by decide, by decide⟩,
    C10_worker_timeout_sweep 1000
      [AvailableQueue.mk "a" 300 0, AvailableQueue.mk "b" 800 0]
      (AvailableQueue.mk "a" 300 0) (by decide) (by decide)⟩

/-! Scheduler: loading the schedule snapshot from the store and the
change-detection signal. The store is passed in by value: the list of
enabled ScheduledCall records that get_enabled returns, the count that
get_enabled().count() returns, and the count that
get_updated_since(_most_recent_timestamp).count() returns. -/

/-- A ScheduledCall as read from the store: its id, its remaining_runs
(none models the null of an unlimited schedule) and its last_updated
timestamp (a non-negative epoch stamp). -/
structure ScheduledCall where
  id : String
  remaining_runs : Option Nat
  last_updated : Nat
deriving Repr, DecidableEq

/-- An entry of the _schedule dict: either one of the statically
configured celerybeat entries (held abstract as a tag) or the
ScheduleEntry derived from a store ScheduledCall. -/
inductive SEntry where
  | config (tag : Nat)
  | fromCall (call : ScheduledCall)
deriving Repr, DecidableEq

/-- The fields of Scheduler that setup_schedule writes. The _schedule
dict is none before the first load, mirroring the None set by init. -/
structure SchedulerState where
  _schedule : Option (List (String × SEntry))
  _loaded_from_db_count : Nat
  _most_recent_timestamp : Nat
deriving Repr, DecidableEq

/-- Maximum of a list of naturals, zero on the empty list: the Python
max() applied to the update_timestamps list that is seeded with 0. -/
def listMax (l : List Nat) : Nat := l.foldr Nat.max 0

/-- The statically configured part of _schedule, loaded first from
CELERYBEAT_SCHEDULE. -/
def configBase (config : List (String × Nat)) : List (String × SEntry) :=
  config.foldl (fun m kv => ainsert m kv.1 (SEntry.config kv.2)) []

/-- One iteration of the setup_schedule loop over the enabled calls: a
call with zero remaining runs is skipped (counted only as ignored);
otherwise its entry is written into the dict under the call id, the
loaded count is bumped and its last_updated is collected. -/
def setupStep (acc : List (String × SEntry) × Nat × List Nat)
    (call : ScheduledCall) : List (String × SEntry) × Nat × List Nat :=
  if call.remaining_runs = some 0 then acc
  else (ainsert acc.1 call.id (SEntry.fromCall call), acc.2.1 + 1,
    call.last_updated :: acc.2.2)

/-- Scheduler.setup_schedule: build the dict from the configured entries,
fold the loop body over the enabled calls with the timestamp list seeded
by 0, and record the dict, the loaded count and the maximum collected
timestamp. -/
def Scheduler.setup_schedule (config : List (String × Nat))
    (calls : List ScheduledCall) : SchedulerState :=
  let res := calls.foldl setupStep (configBase config, 0, [0])
  SchedulerState.mk (some res.1) res.2.1 (listMax res.2.2)

/-- Scheduler.schedule_changed: true when the enabled count in the store
differs from the loaded count, or some enabled schedule was updated
after the recorded most recent timestamp. -/
def Scheduler.schedule_changed (enabled_count updated_since_count : Nat)
    (st : SchedulerState) : Bool :=
  if enabled_count ≠ st._loaded_from_db_count then true
  else if 0 < updated_since_count then true
  else false

/-- The Scheduler.schedule property: rebuild through setup_schedule when
_schedule is still None or schedule_changed holds, else return the held
snapshot; the boolean reports whether a rebuild happened. -/
def Scheduler.schedule (enabled_count updated_since_count : Nat)
    (config : List (String × Nat)) (calls : List ScheduledCall)
    (st : SchedulerState) : SchedulerState × Bool :=
  if st._schedule = none ∨
      Scheduler.schedule_changed enabled_count updated_since_count st
        = true then
    (Scheduler.setup_schedule config calls, true)
  else (st, false)

/-- The filter the setup loop applies to enabled calls: keep a call
unless its remaining_runs is exactly 0 (a null remaining_runs, modelled
as none, is kept). -/
def keeps (call : ScheduledCall) : Bool :=
  decide (call.remaining_runs ≠ some 0)

/-- The store-sourced calls held in a _schedule dict, in entry order. -/
def dbPart : List (String × SEntry) → List ScheduledCall
  | [] => []
  | (_, SEntry.fromCall c) :: m => c :: dbPart m
  | _ :: m => dbPart m

/-- The keys of the store-sourced entries of a _schedule dict. -/
def dbKeys : List (String × SEntry) → List String
  | [] => []
  | (k, SEntry.fromCall _) :: m => k :: dbKeys m
  | _ :: m => dbKeys m

/-- The store-sourced calls of an optional _schedule dict. -/
def dbPartO : Option (List (String × SEntry)) → List ScheduledCall
  | none => []
  | some m => dbPart m

/-! Lemmas describing the setup_schedule fold. -/

lemma dbKeys_aerase_subset (m : List (String × SEntry)) (k j : String)
    (h : j ∈ dbKeys (aerase m k)) : j ∈ dbKeys m := by
  induction m with
  | nil => simpa [aerase] using h
  | cons p ps ih =>
    rcases p with ⟨pk, pe⟩
    by_cases h1 : pk = k
    · have h2 : aerase ((pk, pe) :: ps) k = aerase ps k := by
        simp [aerase, h1]
      rw [h2] at h
      cases pe with
      | config t => simpa [dbKeys] using ih h
      | fromCall c =>
          simp [dbKeys]
          exact Or.inr (ih h)
    · have h2 : aerase ((pk, pe) :: ps) k = (pk, pe) :: aerase ps k := by
        simp [aerase, h1]
      rw [h2] at h
      cases pe with
      | config t =>
          simp [dbKeys] at h ⊢
          exact ih h
      | fromCall c =>
          simp [dbKeys] at h ⊢
          rcases h with h | h
          · exact Or.inl h
          · exact Or.inr (ih h)

lemma dbPart_aerase (m : List (String × SEntry)) (k : String)
    (h : k ∉ dbKeys m) : dbPart (aerase m k) = dbPart m := by
  induction m with
  | nil => rfl
  | cons p ps ih =>
    rcases p with ⟨pk, pe⟩
    cases pe with
    | fromCall c =>
        have hne : ¬ pk = k := by
          intro he
          exact h (by simp [dbKeys, he])
        have hts : k ∉ dbKeys ps := fun hh => h (by simp [dbKeys, hh])
        simp [aerase, hne, dbPart, ih hts]
    | config t =>
        have hts : k ∉ dbKeys ps := fun hh => h (by simp [dbKeys, hh])
        by_cases h1 : pk = k
        · simp [aerase, h1, dbPart, ih hts]
        · simp [aerase, h1, dbPart, ih hts]

lemma dbPart_nil_of_dbKeys_nil (m : List (String × SEntry))
    (h : dbKeys m = []) : dbPart m = [] := by
  induction m with
  | nil => rfl
  | cons p ps ih =>
    rcases p with ⟨pk, pe⟩
    cases pe with
    | fromCall c => simp [dbKeys] at h
    | config t =>
        simp [dbKeys] at h
        simp [dbPart, ih h]

lemma dbKeys_configBase (config : List (String × Nat)) :
    dbKeys (configBase config) = [] := by
  suffices hgen : ∀ (cfg : List (String × Nat)) (m : List (String × SEntry)),
      dbKeys m = [] →
      dbKeys (cfg.foldl (fun acc kv => ainsert acc kv.1 (SEntry.config kv.2))
        m) = [] by
    exact hgen config [] rfl
  intro cfg
  induction cfg with
  | nil => intro m hm; simpa using hm
  | cons kv rest ih =>
    intro m hm
    refine ih (ainsert m kv.1 (SEntry.config kv.2)) ?_
    have hsub : dbKeys (ainsert m kv.1 (SEntry.config kv.2)) =
        dbKeys (aerase m kv.1) := by
      simp [ainsert, dbKeys]
    rw [hsub]
    rw [List.eq_nil_iff_forall_not_mem]
    intro j hj
    have := dbKeys_aerase_subset m kv.1 j hj
    rw [hm] at this
    cases this

lemma setup_fold_count (calls : List ScheduledCall)
    (m : List (String × SEntry)) (cnt : Nat) (ts : List Nat) :
    (calls.foldl setupStep (m, cnt, ts)).2.1 =
      cnt + (calls.filter keeps).length := by
  induction calls generalizing m cnt ts with
  | nil => simp
  | cons c cs ih =>
    by_cases hc : c.remaining_runs = some 0
    · have hk : keeps c = false := by simp [keeps, hc]
      simp [List.foldl_cons, setupStep, hc, List.filter_cons, hk, ih]
    · have hk : keeps c = true := by simp [keeps, hc]
      simp [List.foldl_cons, setupStep, hc, List.filter_cons, hk, ih]
      omega

lemma setup_fold_ts (calls : List ScheduledCall)
    (m : List (String × SEntry)) (cnt : Nat) (ts : List Nat) :
    (calls.foldl setupStep (m, cnt, ts)).2.2 =
      ((calls.filter keeps).reverse.map (fun c => c.last_updated)) ++ ts := by
  induction calls generalizing m cnt ts with
  | nil => simp
  | cons c cs ih =>
    by_cases hc : c.remaining_runs = some 0
    · have hk : keeps c = false := by simp [keeps, hc]
      simp [List.foldl_cons, setupStep, hc, List.filter_cons, hk, ih]
    · have hk : keeps c = true := by simp [keeps, hc]
      simp [List.foldl_cons, setupStep, hc, List.filter_cons, hk, ih]

lemma setup_fold_db (calls : List ScheduledCall)
    (m : List (String × SEntry)) (cnt : Nat) (ts : List Nat)
    (hm : ∀ c ∈ calls, c.id ∉ dbKeys m)
    (hnd : (calls.map (fun c => c.id)).Nodup) :
    dbPart (calls.foldl setupStep (m, cnt, ts)).1 =
      (calls.filter keeps).reverse ++ dbPart m := by
  induction calls generalizing m cnt ts with
  | nil => simp
  | cons c cs ih =>
    rw [List.map_cons, List.nodup_cons] at hnd
    by_cases hc : c.remaining_runs = some 0
    · have hk : keeps c = false := by simp [keeps, hc]
      have ihr := ih m cnt ts (fun x hx => hm x (List.mem_cons_of_mem c hx))
        hnd.2
      simp [List.foldl_cons, setupStep, hc, List.filter_cons, hk, ihr]
    · have hk : keeps c = true := by simp [keeps, hc]
      have hcid : c.id ∉ dbKeys m := hm c (List.mem_cons_self c cs)
      have hm2 : ∀ x ∈ cs,
          x.id ∉ dbKeys (ainsert m c.id (SEntry.fromCall c)) := by
        intro x hx hmem
        have hxid : ¬ x.id = c.id := by
          intro he
          exact hnd.1 (he ▸ List.mem_map_of_mem (fun q => q.id) hx)
        have hsimp : dbKeys (ainsert m c.id (SEntry.fromCall c)) =
            c.id :: dbKeys (aerase m c.id) := by
          simp [ainsert, dbKeys]
        rw [hsimp] at hmem
        rcases List.mem_cons.mp hmem with he | hmem2
        · exact hxid he
        · exact hm x (List.mem_cons_of_mem c hx)
            (dbKeys_aerase_subset m c.id x.id hmem2)
      have ihr := ih (ainsert m c.id (SEntry.fromCall c)) (cnt + 1)
        (c.last_updated :: ts) hm2 hnd.2
      have hdb : dbPart (ainsert m c.id (SEntry.fromCall c)) =
          c :: dbPart m := by
        simp [ainsert, dbPart, dbPart_aerase m c.id hcid]
      simp [List.foldl_cons, setupStep, hc, List.filter_cons, hk, ihr, hdb]

lemma foldr_max_init (xs : List Nat) (c : Nat) :
    xs.foldr Nat.max c = Nat.max (xs.foldr Nat.max 0) c := by
  induction xs with
  | nil => simp
  | cons x l ih => simp [List.foldr_cons, ih, Nat.max_assoc]

lemma listMax_append (a b : List Nat) :
    listMax (a ++ b) = Nat.max (listMax a) (listMax b) := by
  unfold listMax
  rw [List.foldr_append, foldr_max_init]

lemma listMax_reverse (l : List Nat) : listMax l.reverse = listMax l := by
  induction l with
  | nil => rfl
  | cons x xs ih =>
    rw [List.reverse_cons, listMax_append, ih]
    simp [listMax, Nat.max_comm]

lemma filter_length_lt {α : Type} (l : List α) (p : α → Bool) (a : α)
    (ha : a ∈ l) (hp : p a = false) : (l.filter p).length < l.length := by
  induction l with
  | nil => cases ha
  | cons b bs ih =>
    rcases List.mem_cons.mp ha with hab | ha2
    · subst hab
      simp [List.filter_cons, hp]
      exact Nat.lt_succ_of_le (List.length_filter_le p bs)
    · cases hpb : p b
      · simp [List.filter_cons, hpb]
        exact Nat.lt_succ_of_le (Nat.le_of_lt (ih ha2))
      · simp [List.filter_cons, hpb]
        exact ih ha2

/-- C7: over enabled calls with pairwise-distinct ids, setup_schedule
loads into _schedule exactly the calls whose remaining_runs is not 0 (a
call with remaining_runs 0 never appears among the store-sourced
entries even though enabled), counts exactly the loaded calls in
_loaded_from_db_count, and sets _most_recent_timestamp to the maximum
last_updated over the loaded calls, which is 0 when none were loaded
since listMax of the empty list is 0. -/
theorem C7_setup_schedule_filters (config : List (String × Nat))
    (calls : List ScheduledCall)
    (hnd : (calls.map (fun c => c.id)).Nodup) :
    (Scheduler.setup_schedule config calls)._loaded_from_db_count =
        (calls.filter keeps).length ∧
      dbPartO (Scheduler.setup_schedule config calls)._schedule =
        (calls.filter keeps).reverse ∧
      (Scheduler.setup_schedule config calls)._most_recent_timestamp =
        listMax ((calls.filter keeps).map (fun c => c.last_updated)) := by
  have hbK := dbKeys_configBase config
  have hbP := dbPart_nil_of_dbKeys_nil _ hbK
  refine ⟨?_, ?_, ?_⟩
  · show (calls.foldl setupStep (configBase config, 0, [0])).2.1 = _
    simpa using setup_fold_count calls (configBase config) 0 [0]
  · show dbPart (calls.foldl setupStep (configBase config, 0, [0])).1 = _
    have hm : ∀ c ∈ calls, c.id ∉ dbKeys (configBase config) := by
      intro c _ hmem
      rw [hbK] at hmem
      cases hmem
    rw [setup_fold_db calls (configBase config) 0 [0] hm hnd, hbP,
      List.append_nil]
  · show listMax (calls.foldl setupStep (configBase config, 0, [0])).2.2 = _
    rw [setup_fold_ts, listMax_append,
      show listMax [0] = 0 from rfl, List.map_reverse, listMax_reverse]
    exact Nat.max_zero _

/-- Concrete instance of the setup theorem: of three enabled calls the
one with remaining_runs 0 is skipped, two are loaded, and the maximum
loaded last_updated is 5. -/
theorem C7_setup_schedule_filters_witness :
    (([ScheduledCall.mk "s1" none 5, ScheduledCall.mk "s2" (some 0) 9,
        ScheduledCall.mk "s3" (some 2) 3].map (fun c => c.id)).Nodup) ∧
      ((Scheduler.setup_schedule [("cfg", 1)]
            [ScheduledCall.mk "s1" none 5, ScheduledCall.mk "s2" (some 0) 9,
              ScheduledCall.mk "s3" (some 2) 3])._loaded_from_db_count =
          ([ScheduledCall.mk "s1" none 5, ScheduledCall.mk "s2" (some 0) 9,
            ScheduledCall.mk "s3" (some 2) 3].filter keeps).length ∧
        dbPartO (Scheduler.setup_schedule [("cfg", 1)]
            [ScheduledCall.mk "s1" none 5, ScheduledCall.mk "s2" (some 0) 9,
              ScheduledCall.mk "s3" (some 2) 3])._schedule =
          ([ScheduledCall.mk "s1" none 5, ScheduledCall.mk "s2" (some 0) 9,
            ScheduledCall.mk "s3" (some 2) 3].filter keeps).reverse ∧
        (Scheduler.setup_schedule [("cfg", 1)]
            [ScheduledCall.mk "s1" none 5, ScheduledCall.mk "s2" (some 0) 9,
              ScheduledCall.mk "s3" (some 2) 3])._most_recent_timestamp =
          listMax (([ScheduledCall.mk "s1" none 5,
            ScheduledCall.mk "s2" (some 0) 9,
            ScheduledCall.mk "s3" (some 2) 3].filter keeps).map
              (fun c => c.last_updated))) :=
  ⟨by decide,
    C7_setup_schedule_filters [("cfg", 1)]
      [ScheduledCall.mk "s1" none 5, ScheduledCall.mk "s2" (some 0) 9,
        ScheduledCall.mk "s3" (some 2) 3] (by decide)⟩

/-- C8: when the enabled calls hold one with remaining_runs 0, then right
after setup_schedule, with the store unchanged (the enabled count is the
length of the very list that was loaded, the updated-since count
arbitrary), schedule_changed is still true, because the enabled count
exceeds the loaded count by the skipped call; hence the schedule
property rebuilds the snapshot on this and every such access. -/
theorem C8_skipped_call_keeps_invalidating (config : List (String × Nat))
    (calls : List ScheduledCall) (c : ScheduledCall) (u : Nat)
    (hc : c ∈ calls) (hr : c.remaining_runs = some 0) :
    Scheduler.schedule_changed calls.length u
        (Scheduler.setup_schedule config calls) = true ∧
      (Scheduler.schedule calls.length u config calls
          (Scheduler.setup_schedule config calls)).2 = true := by
  have hcount : (Scheduler.setup_schedule config calls)._loaded_from_db_count
      = (calls.filter keeps).length := by
    show (calls.foldl setupStep (configBase config, 0, [0])).2.1 = _
    simpa using setup_fold_count calls (configBase config) 0 [0]
  have hk : keeps c = false := by simp [keeps, hr]
  have hlt : (calls.filter keeps).length < calls.length :=
    filter_length_lt calls keeps c hc hk
  have hne : calls.length ≠
      (Scheduler.setup_schedule config calls)._loaded_from_db_count := by
    rw [hcount]
    omega
  have hch : Scheduler.schedule_changed calls.length u
      (Scheduler.setup_schedule config calls) = true := by
    unfold Scheduler.schedule_changed
    rw [if_pos hne]
  refine ⟨hch, ?_⟩
  unfold Scheduler.schedule
  rw [if_pos (Or.inr hch)]

/-- Concrete instance of the stale-invalidation theorem: one enabled call
with remaining_runs 0 leaves schedule_changed true right after the load
and makes the schedule property rebuild. -/
theorem C8_skipped_call_keeps_invalidating_witness :
    (ScheduledCall.mk "a" (some 0) 1 ∈ [ScheduledCall.mk "a" (some 0) 1] ∧
      (ScheduledCall.mk "a" (some 0) 1).remaining_runs = some 0) ∧
      (Scheduler.schedule_changed
          [ScheduledCall.mk "a" (some 0) 1].length 0
          (Scheduler.setup_schedule []
            [ScheduledCall.mk "a" (some 0) 1]) = true ∧
        (Scheduler.schedule [ScheduledCall.mk "a" (some 0) 1].length 0 []
            [ScheduledCall.mk "a" (some 0) 1]
            (Scheduler.setup_schedule []
              [ScheduledCall.mk "a" (some 0) 1])).2 = true) :=
  ⟨⟨by decide, by decide⟩,
    C8_skipped_call_keeps_invalidating [] [ScheduledCall.mk "a" (some 0) 1]
      (ScheduledCall.mk "a" (some 0) 1) 0 (by decide) (by decide)⟩
